import Mathlib

/-!
Verification of the polling-and-archival pipeline of the ms-email-automation-to-drive
backend.  The JavaScript services under `src/services` are shallowly embedded as pure
Lean functions over explicit state: machine time is `Int` milliseconds, byte buffers are
`List Nat`, and every fallible operation returns `Except String`.  Remote behaviour
(the identity provider's refresh answer, the mailbox page, network failure of the
message query) is supplied as oracle data inside the per-mailbox state.
-/

set_option maxRecDepth 8000

namespace MailArchive

/-! ## sharePointService.js : sanitizeFileName -/

/-- The characters SharePoint rejects, as matched by the regex in
`sanitizeFileName` (`/["*:<>?\/\\|]/g`). -/
def isIllegal (c : Char) : Bool :=
  c = '"' || c = '*' || c = ':' || c = '<' || c = '>' ||
  c = '?' || c = '/' || c = '\\' || c = '|'

/-- `fileName.replace(/["*:<>?\/\\|]/g, '_')`: every illegal character becomes `_`. -/
def replaceIllegal (s : List Char) : List Char :=
  s.map (fun c => if isIllegal c then '_' else c)

/-- JavaScript `String.prototype.lastIndexOf('.')`: the index of the last dot,
or `-1` when the string has none. -/
def lastDotIndexAux : List Char → Nat → Int → Int
  | [], _, acc => acc
  | c :: rest, i, acc => lastDotIndexAux rest (i + 1) (if c = '.' then (i : Int) else acc)

/-- `sanitized.lastIndexOf('.')`. -/
def lastDotIndex (s : List Char) : Int :=
  lastDotIndexAux s 0 (-1)

/-- `sanitizeFileName` from sharePointService.js.  JavaScript `substring` clamps
negative arguments to `0`, which `Int.toNat` reproduces: with no dot the
"extension" is the whole string (`substring(-1)` clamps to `substring(0)`) and the
"name without extension" is empty (`substring(0, -1)` clamps to `substring(0, 0)`). -/
def sanitizeFileName (fileName : List Char) : List Char :=
  let sanitized := replaceIllegal fileName
  if 128 < sanitized.length then
    let idx := lastDotIndex sanitized
    let extension := sanitized.drop idx.toNat
    let nameWithoutExt := sanitized.take idx.toNat
    nameWithoutExt.take ((128 - (extension.length : Int)).toNat) ++ extension
  else
    sanitized

/-- String-level wrapper used by the upload path. -/
def sanitizeFileNameStr (fileName : String) : String :=
  String.mk (sanitizeFileName fileName.data)

/-! ## sharePointService.js : uploadToSharePoint / uploadLargeFile -/

/-- `4 * 1024 * 1024`, the simple-upload size bound in `uploadToSharePoint`. -/
def maxSimpleUploadSize : Nat := 4 * 1024 * 1024

/-- `320 * 1024`, the chunk size in `uploadLargeFile`. -/
def uploadChunkSize : Nat := 320 * 1024

/-- The chunk loop of `uploadLargeFile`: starting at `offset`, slice
`fileContent.slice(offset, offset + chunkSize)` and advance `offset` by the chunk
size while `offset < fileSize`.  `fuel` only bounds the recursion; with
`fuel ≥ content.length - offset` it never runs out. -/
def chunkLoop : Nat → List Nat → Nat → List (List Nat)
  | 0, _, _ => []
  | fuel + 1, content, offset =>
    if offset < content.length then
      ((content.drop offset).take uploadChunkSize) ::
        chunkLoop fuel content (offset + uploadChunkSize)
    else
      []

/-- The sequence of chunk bodies PUT by `uploadLargeFile` for `content`. -/
def uploadLargeFile (content : List Nat) : List (List Nat) :=
  chunkLoop content.length content 0

/-- Which upload path `uploadToSharePoint` takes. -/
inductive UploadMode
  | simple
  | chunked
deriving DecidableEq, Repr

/-- `uploadToSharePoint`: simple single-shot PUT when
`fileSize <= maxSimpleUploadSize`, chunked session otherwise.  Returns the mode
and the list of bodies written (the whole buffer for the simple path). -/
def uploadToSharePoint (content : List Nat) : UploadMode × List (List Nat) :=
  if content.length ≤ maxSimpleUploadSize then
    (.simple, [content])
  else
    (.chunked, uploadLargeFile content)

/-! ### Chunking lemmas -/

theorem chunkLoop_flatten (fuel : Nat) : ∀ (content : List Nat) (offset : Nat),
    content.length - offset ≤ fuel →
    (chunkLoop fuel content offset).flatten = content.drop offset := by
  induction fuel with
  | zero =>
    intro content offset h
    simp only [chunkLoop, List.flatten]
    have : content.length ≤ offset := by omega
    exact (List.drop_eq_nil_of_le this).symm
  | succ n ih =>
    intro content offset h
    simp only [chunkLoop]
    by_cases hlt : offset < content.length
    · rw [if_pos hlt]
      simp only [List.flatten_cons]
      rw [ih content (offset + uploadChunkSize) (by simp only [uploadChunkSize]; omega)]
      have hdd : content.drop (offset + uploadChunkSize)
          = (content.drop offset).drop uploadChunkSize := by
        rw [List.drop_drop]
      rw [hdd, List.take_append_drop]
    · rw [if_neg hlt]
      simp only [List.flatten]
      exact (List.drop_eq_nil_of_le (by omega)).symm

theorem chunkLoop_dropLast_length (fuel : Nat) :
    ∀ (content : List Nat) (offset : Nat) (c : List Nat),
    c ∈ (chunkLoop fuel content offset).dropLast → c.length = uploadChunkSize := by
  induction fuel with
  | zero => intro content offset c hc; simp [chunkLoop] at hc
  | succ n ih =>
    intro content offset c hc
    simp only [chunkLoop] at hc
    by_cases hlt : offset < content.length
    case neg => rw [if_neg hlt] at hc; simp at hc
    case pos =>
      rw [if_pos hlt] at hc
      rcases htail : chunkLoop n content (offset + uploadChunkSize) with _ | ⟨t, ts⟩
      · rw [htail] at hc; simp at hc
      · rw [htail] at hc
        rw [List.dropLast_cons₂] at hc
        rcases List.mem_cons.mp hc with hhd | htl
        · subst hhd
          -- a further chunk exists, so offset + chunkSize < content.length
          have hne : chunkLoop n content (offset + uploadChunkSize) ≠ [] := by
            rw [htail]; simp
          have hlt2 : offset + uploadChunkSize < content.length := by
            by_contra hge
            cases n with
            | zero => simp [chunkLoop] at hne
            | succ m =>
              simp only [chunkLoop] at hne
              rw [if_neg (by omega)] at hne
              exact hne rfl
          rw [List.length_take, List.length_drop]
          omega
        · exact ih content (offset + uploadChunkSize) c (htail ▸ htl)

theorem chunkLoop_length (fuel : Nat) : ∀ (content : List Nat) (offset : Nat),
    content.length - offset ≤ fuel →
    (chunkLoop fuel content offset).length
      = (content.length - offset + (uploadChunkSize - 1)) / uploadChunkSize := by
  induction fuel with
  | zero =>
    intro content offset h
    have : content.length - offset = 0 := by omega
    simp only [chunkLoop, List.length_nil, this, uploadChunkSize]
  | succ n ih =>
    intro content offset h
    simp only [chunkLoop]
    by_cases hlt : offset < content.length
    · rw [if_pos hlt]
      simp only [List.length_cons]
      rw [ih content (offset + uploadChunkSize) (by simp only [uploadChunkSize]; omega)]
      simp only [uploadChunkSize] at *
      omega
    · rw [if_neg hlt]
      have : content.length - offset = 0 := by omega
      simp only [List.length_nil, this, uploadChunkSize]

theorem replaceIllegal_no_illegal (s : List Char) :
    ∀ c ∈ replaceIllegal s, isIllegal c = false := by
  intro c hc
  rcases List.mem_map.mp hc with ⟨x, _, hmap⟩
  subst hmap
  cases h : isIllegal x
  · simp [h]
  · simp [h]; decide

theorem uploadToSharePoint_simple (content : List Nat)
    (h : content.length ≤ maxSimpleUploadSize) :
    uploadToSharePoint content = (.simple, [content]) := by
  unfold uploadToSharePoint; rw [if_pos h]

theorem uploadToSharePoint_chunked (content : List Nat)
    (h : ¬ content.length ≤ maxSimpleUploadSize) :
    uploadToSharePoint content = (.chunked, uploadLargeFile content) := by
  unfold uploadToSharePoint; rw [if_neg h]

/-- C3: the claim says the single-shot write is used exactly when the size is
strictly below 4 MiB and the chunked session at or above it.  The code
(`fileSize <= maxSimpleUploadSize`) takes the single-shot path at exactly
4 MiB, so a buffer of exactly 4 MiB refutes the claim. -/
theorem C3_counterexample :
    (List.replicate (4 * 1024 * 1024) (0 : Nat)).length = 4 * 1024 * 1024 ∧
    (uploadToSharePoint (List.replicate (4 * 1024 * 1024) (0 : Nat))).1
      ≠ UploadMode.chunked := by
  constructor
  · rw [List.length_replicate]
  · rw [uploadToSharePoint_simple _ (by rw [List.length_replicate]; decide)]
    decide

/-- C3 (amended): a single-shot write is used exactly when the size is at most
4 MiB and a chunked session exactly when it exceeds 4 MiB; in the chunked path
the range-addressed writes are sequential (their concatenation in order
reconstructs the buffer), every chunk except the last is exactly 320 KiB, and a
5 MiB buffer is sent in ceil(5*1024*1024 / (320*1024)) = 16 chunks. -/
theorem C3_upload_strategy (content : List Nat) :
    ((uploadToSharePoint content).1 = UploadMode.simple ↔
        content.length ≤ 4 * 1024 * 1024) ∧
    ((uploadToSharePoint content).1 = UploadMode.chunked ↔
        4 * 1024 * 1024 < content.length) ∧
    ((uploadToSharePoint content).2.flatten = content) ∧
    (∀ c ∈ (uploadToSharePoint content).2.dropLast,
        (uploadToSharePoint content).1 = UploadMode.chunked → c.length = 320 * 1024) ∧
    (content.length = 5 * 1024 * 1024 →
        (uploadLargeFile content).length
          = (5 * 1024 * 1024 + (320 * 1024 - 1)) / (320 * 1024)) := by
  by_cases h : content.length ≤ maxSimpleUploadSize
  · have he := uploadToSharePoint_simple content h
    have h4 : content.length ≤ 4 * 1024 * 1024 := h
    refine ⟨?_, ?_, ?_, ?_, ?_⟩
    · rw [he]; simp [h4]
    · rw [he]; simp; simp only [maxSimpleUploadSize] at h; omega
    · rw [he]; simp
    · rw [he]; simp
    · intro h5; simp only [maxSimpleUploadSize] at h; omega
  · have he := uploadToSharePoint_chunked content h
    simp only [maxSimpleUploadSize, not_le] at h
    refine ⟨?_, ?_, ?_, ?_, ?_⟩
    · rw [he]; simp; omega
    · rw [he]; simp [h]
    · rw [he]
      show (uploadLargeFile content).flatten = content
      unfold uploadLargeFile
      rw [chunkLoop_flatten content.length content 0 (by omega), List.drop_zero]
    · rw [he]
      intro c hc _
      exact chunkLoop_dropLast_length content.length content 0 c hc
    · intro h5
      unfold uploadLargeFile
      rw [chunkLoop_length content.length content 0 (by omega), h5]
      simp [uploadChunkSize]

theorem C3_upload_strategy_witness :
    (uploadLargeFile (List.replicate (5 * 1024 * 1024) 0)).length
      = (5 * 1024 * 1024 + (320 * 1024 - 1)) / (320 * 1024) :=
  (C3_upload_strategy (List.replicate (5 * 1024 * 1024) 0)).2.2.2.2
    (by rw [List.length_replicate])

/-- C4: the claim says the sanitized name has length at most 128 for every
input, including inputs with no extension.  For a 129-character name without a
dot, `lastIndexOf('.')` is `-1`, JavaScript `substring` clamping makes the
"extension" the whole string, and the name is returned untruncated with
length 129. -/
theorem C4_counterexample :
    128 < (sanitizeFileName (List.replicate 129 'a')).length := by decide

/-- C4 (amended): `sanitizeFileName` replaces each occurrence of
`" * : < > ? / \ |` with `_` (so the result never contains one), returns the
replaced name unchanged when it has at most 128 characters, and when it is
longer and its last dot starts a final extension of at most 128 characters it
truncates to at most 128 characters while keeping that extension as a suffix.
Names with no dot (and names whose extension itself exceeds 128 characters)
are returned untruncated and may exceed 128 characters. -/
theorem C4_sanitize (s : List Char) :
    (∀ c ∈ sanitizeFileName s, isIllegal c = false) ∧
    ((replaceIllegal s).length ≤ 128 → sanitizeFileName s = replaceIllegal s) ∧
    (∀ i : Nat, 128 < (replaceIllegal s).length →
      lastDotIndex (replaceIllegal s) = (i : Int) →
      (replaceIllegal s).length - i ≤ 128 →
      (sanitizeFileName s).length ≤ 128 ∧
      (replaceIllegal s).drop i <:+ sanitizeFileName s) := by
  refine ⟨?_, ?_, ?_⟩
  · intro c hc
    unfold sanitizeFileName at hc
    by_cases h128 : 128 < (replaceIllegal s).length
    · rw [if_pos h128] at hc
      simp only at hc
      rcases List.mem_append.mp hc with hl | hr
      · exact replaceIllegal_no_illegal s c
          (List.mem_of_mem_take (List.mem_of_mem_take hl))
      · exact replaceIllegal_no_illegal s c (List.mem_of_mem_drop hr)
    · rw [if_neg h128] at hc
      exact replaceIllegal_no_illegal s c hc
  · intro hle
    unfold sanitizeFileName
    rw [if_neg (by omega)]
  · intro i h128 hidx hext
    unfold sanitizeFileName
    rw [if_pos h128, hidx]
    simp only [Int.toNat_natCast]
    constructor
    · simp only [List.length_append, List.length_take, List.length_drop]
      omega
    · exact List.suffix_append _ _

theorem C4_sanitize_witness :
    (sanitizeFileName (List.replicate 196 'a' ++ ['.', 'd', 'o', 'c'])).length ≤ 128 ∧
    (replaceIllegal (List.replicate 196 'a' ++ ['.', 'd', 'o', 'c'])).drop 196 <:+
      sanitizeFileName (List.replicate 196 'a' ++ ['.', 'd', 'o', 'c']) :=
  (C4_sanitize _).2.2 196 (by decide) (by decide) (by decide)

/-! ## Data model of the polling pipeline

State and remote behaviour are explicit: a token reference is an index into a
vault list (`storeTokenSecurely` appends and returns the fresh index, so a new
reference supersedes the old one), the identity provider's answer to a refresh
attempt and the remote mailbox page are oracle data carried in the per-mailbox
state, and all times are the millisecond values of `Date.getTime()`. -/

/-- The decrypted token bundle handled by secretManager.js
(`accessToken`, `refreshToken`, `expiresOn`). -/
structure TokenBundle where
  accessToken : String
  refreshToken : String
  expiresOn : Int
deriving DecidableEq, Repr

/-- The identity provider's reply to `refreshAccessToken`; the refresh token
may be absent from the response. -/
structure RefreshResponse where
  accessToken : String
  refreshToken : Option String
  expiresOn : Int
deriving DecidableEq, Repr

/-- JavaScript `x || d` on an optional string: `undefined`, `null` and the
empty string fall back to the default. -/
def jsOrString : Option String → String → String
  | none, d => d
  | some s, d => if s = "" then d else s

/-- `5 * 60 * 1000`, the refresh buffer used in pollingService.js and
graphClient.js. -/
def bufferTime : Int := 5 * 60 * 1000

/-- A Microsoft connection document (msConnectionService.js). -/
structure Connection where
  id : String
  status : String
  tokenRef : Nat
deriving DecidableEq, Repr

/-- Attachment metadata as fetched by `processMessageAttachments`;
`contentBytes` is the decoded byte buffer, `none` when the field is missing. -/
structure Attachment where
  id : String
  name : String
  size : Nat
  contentBytes : Option (List Nat)
deriving DecidableEq, Repr

/-- A message returned by the mailbox query. -/
structure Message where
  id : String
  receivedDateTime : Nat
  hasAttachments : Bool
  attachments : List Attachment
deriving DecidableEq, Repr

/-- A usage event document (usageEventService.js `createUsageEvent`), with the
metadata recorded by `processMessageAttachments`. -/
structure UsageEvent where
  service : String
  metric : String
  quantity : Nat
  sourceId : String
  messageId : String
  attachmentId : String
  fileName : String
  fileSize : Nat
  hash : String
  uploadPath : String
deriving DecidableEq, Repr

/-- External pure functions the pipeline calls into: the sha-256 hex digest of
a buffer and the calendar fields of JavaScript `Date`. -/
structure ExternalFns where
  sha256hex : List Nat → String
  getFullYear : Nat → Nat
  getMonth : Nat → Nat

/-- The state and remote-behaviour oracle of one polled mailbox: the mailbox's
connection id and cursor, the tenant's connection documents and usage
collection, the token vault, the provider's answer to a refresh attempt, the
remote mailbox content and whether the message query would throw, plus audit
fields recording upload calls and hashed attachment ids. -/
structure Cell where
  connectionId : String
  connections : List Connection
  vault : List TokenBundle
  refreshOutcome : Except String RefreshResponse
  remote : List Message
  remoteThrows : Bool
  lastCursor : Option Nat
  ledger : List UsageEvent
  uploadCalls : Nat
  hashed : List String

/-- `getMsConnection`: fetch a connection document by id. -/
def getMsConnection (cs : List Connection) (connectionId : String) : Option Connection :=
  cs.find? (fun c => c.id == connectionId)

/-- `getActiveMsConnection`: the first connection with status `active`
(`where('status','==','active').limit(1)`). -/
def getActiveMsConnection (cs : List Connection) : Option Connection :=
  cs.find? (fun c => c.status == "active")

/-- `updateMsConnection(tenantId, connectionId, { tokenRef })`. -/
def updateConnectionTokenRef (cs : List Connection) (connectionId : String) (ref : Nat) :
    List Connection :=
  cs.map (fun c => if c.id == connectionId then { c with tokenRef := ref } else c)

/-- `usageEventExists`: existence check by source id within the tenant's usage
collection. -/
def usageEventExists (ledger : List UsageEvent) (sourceId : String) : Bool :=
  ledger.any (fun e => e.sourceId == sourceId)

/-- Number of usage events carrying a given source id. -/
def countEvents (ledger : List UsageEvent) (sourceId : String) : Nat :=
  (ledger.filter (fun e => e.sourceId == sourceId)).length

/-- `String(n).padStart(2, '0')` for the month component. -/
def pad2 (n : Nat) : String :=
  if n < 10 then "0" ++ toString n else toString n

/-- `/Shared Documents/MailArchive/YYYY/MM`, with year and month derived from
the message's received time. -/
def archiveBasePath (ext : ExternalFns) (receivedDateTime : Nat) : String :=
  "/Shared Documents/MailArchive/" ++ toString (ext.getFullYear receivedDateTime)
    ++ "/" ++ pad2 (ext.getMonth receivedDateTime + 1)

/-- What an upload returns, together with the access token that was handed to
`createGraphClient` for it (recorded for observation) and the upload mode. -/
structure UploadOutcome where
  path : String
  fileName : String
  accessTokenUsed : String
  mode : UploadMode
deriving DecidableEq, Repr

/-- `uploadAttachmentToSharePoint` from sharePointService.js: resolves the
tenant's active connection, retrieves the stored token bundle directly from
the vault (`retrieveTokenSecurely(connection.tokenRef)`, with no expiry check
and no refresh), derives the `/YYYY/MM` path from the message's received time,
sanitizes the file name, and writes via `uploadToSharePoint`.  Folder
creation (`ensureFolderStructure`) is a remote side effect with no pipeline
state and is not tracked. -/
def uploadAttachmentToSharePoint (ext : ExternalFns) (connections : List Connection)
    (vault : List TokenBundle) (message : Message) (attachment : Attachment)
    (content : List Nat) : Except String UploadOutcome :=
  match getActiveMsConnection connections with
  | none => .error "No active Microsoft connection found"
  | some conn =>
    match vault[conn.tokenRef]? with
    | none => .error "Invalid token reference format"
    | some tokens =>
      let fileName := sanitizeFileNameStr attachment.name
      let filePath := archiveBasePath ext message.receivedDateTime ++ "/" ++ fileName
      .ok { path := filePath, fileName := fileName,
            accessTokenUsed := tokens.accessToken,
            mode := (uploadToSharePoint content).1 }

/-- One iteration of the attachment loop in `processMessageAttachments`:
derive the source id, skip when a usage event for it exists, skip when the
content bytes are missing (or empty, the other JavaScript-falsy case), hash
the buffer, upload, then record the usage event.  An upload error is caught
per attachment.  Returns the updated state and whether the attachment was
processed. -/
def processAttachment (ext : ExternalFns) (cell : Cell) (message : Message)
    (a : Attachment) : Cell × Bool :=
  let sourceId := message.id ++ "_" ++ a.id
  if usageEventExists cell.ledger sourceId then
    (cell, false)
  else
    match a.contentBytes with
    | none => (cell, false)
    | some buffer =>
      if buffer.isEmpty then (cell, false)
      else
        let hash := ext.sha256hex buffer
        let cellH := { cell with hashed := cell.hashed ++ [a.id],
                                 uploadCalls := cell.uploadCalls + 1 }
        match uploadAttachmentToSharePoint ext cellH.connections cellH.vault
            message a buffer with
        | .error _ => (cellH, false)
        | .ok res =>
          ({ cellH with ledger := cellH.ledger ++
              [{ service := "mail_archive", metric := "attachment_stored",
                 quantity := 1, sourceId := sourceId, messageId := message.id,
                 attachmentId := a.id, fileName := a.name, fileSize := a.size,
                 hash := hash, uploadPath := res.path }] }, true)

/-- The attachment loop of `processMessageAttachments` over a list of
attachments, counting the processed ones. -/
def processAttachmentsList (ext : ExternalFns) (cell : Cell) (message : Message) :
    List Attachment → Cell × Nat
  | [] => (cell, 0)
  | a :: rest =>
    let r := processAttachment ext cell message a
    let tail := processAttachmentsList ext r.1 message rest
    (tail.1, (if r.2 then 1 else 0) + tail.2)

/-- `processMessageAttachments`: fetch the message's attachments and run the
attachment loop.  All errors inside the loop are caught, so it always returns. -/
def processMessageAttachments (ext : ExternalFns) (cell : Cell) (message : Message) :
    Cell × Nat :=
  processAttachmentsList ext cell message message.attachments

/-- The message filter of `pollMailbox`: `hasAttachments eq true`, plus strict
`receivedDateTime gt cursor` when a cursor exists. -/
def messagePasses (lastCursor : Option Nat) (m : Message) : Bool :=
  m.hasAttachments &&
    (match lastCursor with
     | none => true
     | some c => decide (c < m.receivedDateTime))

/-- The message query of `pollMailbox`: the filter above, ascending order (a
guarantee of the remote API, hypothesised where needed) and page size 50. -/
def queryMessages (remote : List Message) (lastCursor : Option Nat) : List Message :=
  (remote.filter (messagePasses lastCursor)).take 50

structure PollStats where
  emailsProcessed : Nat
  attachmentsProcessed : Nat
deriving DecidableEq, Repr

/-- The outcome of polling one mailbox: the thrown-or-returned result, the
state as left behind (partial effects such as a persisted refresh survive a
later throw), and the access token handed to `createGraphClient` (recorded
for observation, `none` when never reached). -/
structure PollOut where
  result : Except String PollStats
  cell : Cell
  usedToken : Option String

/-- The per-message step of the `pollMailbox` loop: process the attachments,
bump the email counter, and set the running cursor to this message's received
time. -/
def pollStep (ext : ExternalFns) (st : Cell × Nat × Nat × Option Nat) (m : Message) :
    Cell × Nat × Nat × Option Nat :=
  let pr := processMessageAttachments ext st.1 m
  (pr.1, st.2.1 + 1, st.2.2.1 + pr.2, some m.receivedDateTime)

/-- The token phase of `pollMailbox`: when `now >= expiresOn - bufferTime`,
exchange the refresh token; on success build the new bundle (carrying the old
refresh token forward when the response has none), store it at a fresh vault
index (`storeTokenSecurely`) and point the connection document at the new
reference (`updateMsConnection`), then use the new access token.  Outside the
buffer, use the stored access token with no state change. -/
def tokenRefreshStep (cell : Cell) (tokens : TokenBundle) (now : Int) :
    Except String (String × Cell) :=
  if tokens.expiresOn - bufferTime ≤ now then
    match cell.refreshOutcome with
    | .error e => .error e
    | .ok newTokens =>
      let newBundle : TokenBundle :=
        { accessToken := newTokens.accessToken,
          refreshToken := jsOrString newTokens.refreshToken tokens.refreshToken,
          expiresOn := newTokens.expiresOn }
      .ok (newTokens.accessToken,
           { cell with
               vault := cell.vault ++ [newBundle],
               connections := updateConnectionTokenRef cell.connections
                 cell.connectionId cell.vault.length })
  else
    .ok (tokens.accessToken, cell)

/-- The cursor-persistence step at the end of `pollMailbox`
(`if (newCursor && newCursor !== lastCursor) updateMailboxCursor(...)`),
applied to the final loop state `r`. -/
def cursorCommit (lastCursor : Option Nat) (r : Cell × Nat × Nat × Option Nat) : Cell :=
  match r.2.2.2 with
  | none => r.1
  | some t =>
    if lastCursor = some t then r.1
    else { r.1 with lastCursor := some t }

/-- `pollMailbox` from pollingService.js: resolve the connection (skip with
zero counts unless it exists and is `active`), retrieve the stored bundle,
run the token phase, query the mailbox, process each message while advancing
the running cursor, and finally persist the cursor when it is set and differs
from the stored one. -/
def pollMailbox (ext : ExternalFns) (now : Int) (cell : Cell) : PollOut :=
  match getMsConnection cell.connections cell.connectionId with
  | none => { result := .ok ⟨0, 0⟩, cell := cell, usedToken := none }
  | some conn =>
    if conn.status = "active" then
      match cell.vault[conn.tokenRef]? with
      | none => { result := .error "Invalid token reference format",
                  cell := cell, usedToken := none }
      | some tokens =>
        match tokenRefreshStep cell tokens now with
        | .error e => { result := .error e, cell := cell, usedToken := none }
        | .ok (accessToken, cell1) =>
          if cell1.remoteThrows then
            { result := .error "remote message query failed",
              cell := cell1, usedToken := some accessToken }
          else
            let r := (queryMessages cell1.remote cell.lastCursor).foldl
              (pollStep ext) (cell1, 0, 0, cell.lastCursor)
            { result := .ok ⟨r.2.1, r.2.2.1⟩,
              cell := cursorCommit cell.lastCursor r,
              usedToken := some accessToken }
    else
      { result := .ok ⟨0, 0⟩, cell := cell, usedToken := none }

/-- The totals accumulated by one poll cycle together with the per-mailbox
states it leaves behind. -/
structure CycleTotals where
  cells : List Cell
  totalProcessed : Nat
  totalAttachments : Nat
  totalErrors : Nat

/-- One iteration of the mailbox loop in `pollAllMailboxes`: poll the mailbox
inside a try/catch, adding its counts on success and counting the error (and
moving on) on failure. -/
def pollCycleStep (ext : ExternalFns) (now : Int) (acc : CycleTotals) (cell : Cell) :
    CycleTotals :=
  let out := pollMailbox ext now cell
  match out.result with
  | .ok s =>
    { acc with cells := acc.cells ++ [out.cell],
               totalProcessed := acc.totalProcessed + s.emailsProcessed,
               totalAttachments := acc.totalAttachments + s.attachmentsProcessed }
  | .error _ =>
    { acc with cells := acc.cells ++ [out.cell],
               totalErrors := acc.totalErrors + 1 }

/-- `pollAllMailboxes`: iterate over the active mailboxes; every `pollMailbox`
failure is caught, counted, and the loop continues with the next mailbox. -/
def pollAllMailboxes (ext : ExternalFns) (now : Int) (cells : List Cell) : CycleTotals :=
  cells.foldl (pollCycleStep ext now)
    { cells := [], totalProcessed := 0, totalAttachments := 0, totalErrors := 0 }

/-- `getValidAccessToken` from graphClient.js: the same refresh rule as the
polling engine, used by the route-layer flows; returns the token to use and
the bundle persisted by `storeUserTokens` when a refresh happened. -/
def getValidAccessToken (now : Int) (tokens : TokenBundle)
    (refreshOutcome : Except String RefreshResponse) :
    Except String (String × Option TokenBundle) :=
  if tokens.expiresOn - bufferTime ≤ now then
    match refreshOutcome with
    | .error _ => .error "Token refresh failed. Please re-authenticate."
    | .ok r =>
      .ok (r.accessToken,
           some { accessToken := r.accessToken,
                  refreshToken := jsOrString r.refreshToken tokens.refreshToken,
                  expiresOn := r.expiresOn })
  else
    .ok (tokens.accessToken, none)

/-! ### Invariants of the attachment loop -/

theorem processAttachment_shape (ext : ExternalFns) (cell : Cell) (message : Message)
    (a : Attachment) :
    ∃ l u h, (processAttachment ext cell message a).1
      = { cell with ledger := l, uploadCalls := u, hashed := h } := by
  unfold processAttachment
  dsimp only
  split
  · exact ⟨cell.ledger, cell.uploadCalls, cell.hashed, rfl⟩
  · split
    · exact ⟨cell.ledger, cell.uploadCalls, cell.hashed, rfl⟩
    · split
      · exact ⟨cell.ledger, cell.uploadCalls, cell.hashed, rfl⟩
      · split
        · exact ⟨_, _, _, rfl⟩
        · exact ⟨_, _, _, rfl⟩

theorem processAttachment_preserves (ext : ExternalFns) (cell : Cell) (message : Message)
    (a : Attachment) :
    ((processAttachment ext cell message a).1.connectionId = cell.connectionId) ∧
    ((processAttachment ext cell message a).1.connections = cell.connections) ∧
    ((processAttachment ext cell message a).1.vault = cell.vault) ∧
    ((processAttachment ext cell message a).1.refreshOutcome = cell.refreshOutcome) ∧
    ((processAttachment ext cell message a).1.remote = cell.remote) ∧
    ((processAttachment ext cell message a).1.remoteThrows = cell.remoteThrows) ∧
    ((processAttachment ext cell message a).1.lastCursor = cell.lastCursor) := by
  obtain ⟨l, u, h, heq⟩ := processAttachment_shape ext cell message a
  rw [heq]
  exact ⟨rfl, rfl, rfl, rfl, rfl, rfl, rfl⟩

theorem processAttachmentsList_preserves (ext : ExternalFns) (message : Message) :
    ∀ (atts : List Attachment) (cell : Cell),
    ((processAttachmentsList ext cell message atts).1.connectionId = cell.connectionId) ∧
    ((processAttachmentsList ext cell message atts).1.connections = cell.connections) ∧
    ((processAttachmentsList ext cell message atts).1.vault = cell.vault) ∧
    ((processAttachmentsList ext cell message atts).1.refreshOutcome = cell.refreshOutcome) ∧
    ((processAttachmentsList ext cell message atts).1.remote = cell.remote) ∧
    ((processAttachmentsList ext cell message atts).1.remoteThrows = cell.remoteThrows) ∧
    ((processAttachmentsList ext cell message atts).1.lastCursor = cell.lastCursor) := by
  intro atts
  induction atts with
  | nil => intro cell; exact ⟨rfl, rfl, rfl, rfl, rfl, rfl, rfl⟩
  | cons a rest ih =>
    intro cell
    have h1 := processAttachment_preserves ext cell message a
    have h2 := ih (processAttachment ext cell message a).1
    simp only [processAttachmentsList]
    refine ⟨?_, ?_, ?_, ?_, ?_, ?_, ?_⟩
    · rw [h2.1, h1.1]
    · rw [h2.2.1, h1.2.1]
    · rw [h2.2.2.1, h1.2.2.1]
    · rw [h2.2.2.2.1, h1.2.2.2.1]
    · rw [h2.2.2.2.2.1, h1.2.2.2.2.1]
    · rw [h2.2.2.2.2.2.1, h1.2.2.2.2.2.1]
    · rw [h2.2.2.2.2.2.2, h1.2.2.2.2.2.2]

theorem processAttachmentsList_shape (ext : ExternalFns) (message : Message) :
    ∀ (atts : List Attachment) (cell : Cell), ∃ L U H,
    (processAttachmentsList ext cell message atts).1
      = { cell with ledger := L, uploadCalls := U, hashed := H } := by
  intro atts
  induction atts with
  | nil =>
    intro cell
    exact ⟨cell.ledger, cell.uploadCalls, cell.hashed, rfl⟩
  | cons a rest ih =>
    intro cell
    obtain ⟨l1, u1, h1, he1⟩ := processAttachment_shape ext cell message a
    obtain ⟨l2, u2, h2, he2⟩ := ih (processAttachment ext cell message a).1
    refine ⟨l2, u2, h2, ?_⟩
    simp only [processAttachmentsList]
    rw [he2, he1]

theorem pollFold_shape (ext : ExternalFns) :
    ∀ (ms : List Message) (st : Cell × Nat × Nat × Option Nat), ∃ L U H,
    (ms.foldl (pollStep ext) st).1
      = { st.1 with ledger := L, uploadCalls := U, hashed := H } := by
  intro ms
  induction ms with
  | nil =>
    intro st
    exact ⟨st.1.ledger, st.1.uploadCalls, st.1.hashed, rfl⟩
  | cons m rest ih =>
    intro st
    rw [List.foldl_cons]
    obtain ⟨L2, U2, H2, he2⟩ := ih (pollStep ext st m)
    obtain ⟨L1, U1, H1, he1⟩ := processAttachmentsList_shape ext m m.attachments st.1
    refine ⟨L2, U2, H2, ?_⟩
    rw [he2]
    rw [show (pollStep ext st m).1
      = (processAttachmentsList ext st.1 m m.attachments).1 from rfl, he1]

theorem cursorCommit_shape (lc : Option Nat) (r : Cell × Nat × Nat × Option Nat) :
    ∃ cur, cursorCommit lc r = { r.1 with lastCursor := cur } := by
  unfold cursorCommit
  split
  · exact ⟨r.1.lastCursor, rfl⟩
  · split
    · exact ⟨r.1.lastCursor, rfl⟩
    · exact ⟨_, rfl⟩

theorem usageEventExists_false_countEvents (ledger : List UsageEvent) (sourceId : String)
    (h : usageEventExists ledger sourceId = false) :
    countEvents ledger sourceId = 0 := by
  unfold usageEventExists at h
  unfold countEvents
  rw [List.filter_eq_nil_iff.mpr]
  · rfl
  · intro e he
    have := List.any_eq_false.mp h e he
    simpa using this

theorem countEvents_append_matching (ledger : List UsageEvent) (e : UsageEvent)
    (sourceId : String) (h : e.sourceId = sourceId) :
    countEvents (ledger ++ [e]) sourceId = countEvents ledger sourceId + 1 := by
  unfold countEvents
  rw [List.filter_append, List.length_append]
  simp [List.filter, h]

theorem usageEventExists_append_matching (ledger : List UsageEvent) (e : UsageEvent)
    (sourceId : String) (h : e.sourceId = sourceId) :
    usageEventExists (ledger ++ [e]) sourceId = true := by
  unfold usageEventExists
  rw [List.any_append]
  simp [List.any, h]

/-- C1: within a tenant's state, an existing usage event for
`messageId_attachmentId` short-circuits `processAttachment`: the state is
returned untouched, so zero upload calls are made and no event is recorded;
consequently, when a not-yet-archived attachment with content is processed
twice (upload succeeding), the first pass records exactly one event and makes
exactly one upload call, and the second pass changes nothing, leaving exactly
one event for that source id. -/
theorem C1_dedup (ext : ExternalFns) (cell : Cell) (message : Message) (a : Attachment)
    (buffer : List Nat) (conn : Connection) (tokens : TokenBundle)
    (hbuf : a.contentBytes = some buffer)
    (hne : buffer.isEmpty = false)
    (hconn : getActiveMsConnection cell.connections = some conn)
    (hvault : cell.vault[conn.tokenRef]? = some tokens)
    (hnew : usageEventExists cell.ledger (message.id ++ "_" ++ a.id) = false) :
    (∀ c : Cell, usageEventExists c.ledger (message.id ++ "_" ++ a.id) = true →
        processAttachment ext c message a = (c, false)) ∧
    countEvents (processAttachment ext cell message a).1.ledger
        (message.id ++ "_" ++ a.id) = 1 ∧
    (processAttachment ext cell message a).1.uploadCalls = cell.uploadCalls + 1 ∧
    processAttachment ext (processAttachment ext cell message a).1 message a
      = ((processAttachment ext cell message a).1, false) := by
  have hshort : ∀ c : Cell, usageEventExists c.ledger (message.id ++ "_" ++ a.id) = true →
      processAttachment ext c message a = (c, false) := by
    intro c hc
    unfold processAttachment
    rw [if_pos hc]
  have hrun : processAttachment ext cell message a =
      ({ cell with
           hashed := cell.hashed ++ [a.id],
           uploadCalls := cell.uploadCalls + 1,
           ledger := cell.ledger ++
             [{ service := "mail_archive", metric := "attachment_stored",
                quantity := 1, sourceId := message.id ++ "_" ++ a.id,
                messageId := message.id, attachmentId := a.id,
                fileName := a.name, fileSize := a.size,
                hash := ext.sha256hex buffer,
                uploadPath := archiveBasePath ext message.receivedDateTime ++ "/"
                  ++ sanitizeFileNameStr a.name }] }, true) := by
    unfold processAttachment
    rw [if_neg (by rw [hnew]; exact Bool.false_ne_true), hbuf]
    simp only
    rw [if_neg (by rw [hne]; exact Bool.false_ne_true)]
    unfold uploadAttachmentToSharePoint
    rw [hconn]
    simp only
    rw [hvault]
  refine ⟨hshort, ?_, ?_, ?_⟩
  · rw [hrun]
    simp only
    rw [countEvents_append_matching _ _ _ rfl,
        usageEventExists_false_countEvents _ _ hnew]
  · rw [hrun]
  · apply hshort
    rw [hrun]
    simp only
    exact usageEventExists_append_matching _ _ _ rfl

/-- C9: an attachment whose fetched metadata has no `contentBytes` is skipped
entirely: the state is unchanged (no hash recorded, no upload call, no usage
event for its source id) and the loop continues with the remaining
attachments of the message. -/
theorem C9_skip_missing_content (ext : ExternalFns) (cell : Cell) (message : Message)
    (a : Attachment) (rest : List Attachment)
    (hnone : a.contentBytes = none) :
    processAttachment ext cell message a = (cell, false) ∧
    processAttachmentsList ext cell message (a :: rest)
      = processAttachmentsList ext cell message rest ∧
    (processAttachment ext cell message a).1.hashed = cell.hashed ∧
    (processAttachment ext cell message a).1.uploadCalls = cell.uploadCalls ∧
    countEvents (processAttachment ext cell message a).1.ledger
        (message.id ++ "_" ++ a.id)
      = countEvents cell.ledger (message.id ++ "_" ++ a.id) := by
  have hskip : processAttachment ext cell message a = (cell, false) := by
    unfold processAttachment
    dsimp only
    split
    · rfl
    · rw [hnone]
  refine ⟨hskip, ?_, by rw [hskip], by rw [hskip], by rw [hskip]⟩
  simp [processAttachmentsList, hskip]

/-! ### Shape of one mailbox poll -/

theorem tokenRefreshStep_stale (cell : Cell) (tokens : TokenBundle) (now : Int)
    (resp : RefreshResponse)
    (hstale : tokens.expiresOn - bufferTime ≤ now)
    (hresp : cell.refreshOutcome = .ok resp) :
    tokenRefreshStep cell tokens now =
      .ok (resp.accessToken,
           { cell with
               vault := cell.vault ++
                 [{ accessToken := resp.accessToken,
                    refreshToken := jsOrString resp.refreshToken tokens.refreshToken,
                    expiresOn := resp.expiresOn }],
               connections := updateConnectionTokenRef cell.connections
                 cell.connectionId cell.vault.length }) := by
  unfold tokenRefreshStep
  rw [if_pos hstale, hresp]

theorem tokenRefreshStep_fresh (cell : Cell) (tokens : TokenBundle) (now : Int)
    (hfresh : ¬ (tokens.expiresOn - bufferTime ≤ now)) :
    tokenRefreshStep cell tokens now = .ok (tokens.accessToken, cell) := by
  unfold tokenRefreshStep
  rw [if_neg hfresh]

theorem tokenRefreshStep_ok_fields (cell : Cell) (tokens : TokenBundle) (now : Int)
    (tok : String) (cell1 : Cell)
    (h : tokenRefreshStep cell tokens now = .ok (tok, cell1)) :
    cell1.connectionId = cell.connectionId ∧
    cell1.refreshOutcome = cell.refreshOutcome ∧
    cell1.remote = cell.remote ∧
    cell1.remoteThrows = cell.remoteThrows ∧
    cell1.lastCursor = cell.lastCursor ∧
    cell1.ledger = cell.ledger := by
  unfold tokenRefreshStep at h
  split at h
  · split at h
    · simp at h
    · rw [Except.ok.injEq, Prod.mk.injEq] at h
      rw [← h.2]
      exact ⟨rfl, rfl, rfl, rfl, rfl, rfl⟩
  · rw [Except.ok.injEq, Prod.mk.injEq] at h
    rw [← h.2]
    exact ⟨rfl, rfl, rfl, rfl, rfl, rfl⟩

theorem pollMailbox_run (ext : ExternalFns) (now : Int) (cell : Cell)
    (conn : Connection) (tokens : TokenBundle) (tok : String) (cell1 : Cell)
    (hconn : getMsConnection cell.connections cell.connectionId = some conn)
    (hact : conn.status = "active")
    (hvault : cell.vault[conn.tokenRef]? = some tokens)
    (hstep : tokenRefreshStep cell tokens now = .ok (tok, cell1))
    (hnet : cell1.remoteThrows = false) :
    pollMailbox ext now cell =
      (let r := (queryMessages cell1.remote cell.lastCursor).foldl
        (pollStep ext) (cell1, 0, 0, cell.lastCursor)
      { result := .ok ⟨r.2.1, r.2.2.1⟩,
        cell := cursorCommit cell.lastCursor r,
        usedToken := some tok }) := by
  unfold pollMailbox
  rw [hconn]
  dsimp only
  rw [if_pos hact, hvault]
  dsimp only
  rw [hstep]
  dsimp only
  rw [if_neg (by rw [hnet]; exact Bool.false_ne_true)]

theorem pollMailbox_run_shape (ext : ExternalFns) (now : Int) (cell : Cell)
    (conn : Connection) (tokens : TokenBundle) (tok : String) (cell1 : Cell)
    (hconn : getMsConnection cell.connections cell.connectionId = some conn)
    (hact : conn.status = "active")
    (hvault : cell.vault[conn.tokenRef]? = some tokens)
    (hstep : tokenRefreshStep cell tokens now = .ok (tok, cell1))
    (hnet : cell1.remoteThrows = false) :
    ∃ L U H cur s,
      pollMailbox ext now cell =
        { result := .ok s,
          cell :=
            { cell1 with ledger := L, uploadCalls := U, hashed := H, lastCursor := cur },
          usedToken := some tok } := by
  rw [pollMailbox_run ext now cell conn tokens tok cell1 hconn hact hvault hstep hnet]
  dsimp only
  obtain ⟨L, U, H, hr⟩ := pollFold_shape ext (queryMessages cell1.remote cell.lastCursor)
    (cell1, 0, 0, cell.lastCursor)
  obtain ⟨cur, hc⟩ := cursorCommit_shape cell.lastCursor
    ((queryMessages cell1.remote cell.lastCursor).foldl (pollStep ext)
      (cell1, 0, 0, cell.lastCursor))
  refine ⟨L, U, H, cur,
    ⟨((queryMessages cell1.remote cell.lastCursor).foldl (pollStep ext)
        (cell1, 0, 0, cell.lastCursor)).2.1,
     ((queryMessages cell1.remote cell.lastCursor).foldl (pollStep ext)
        (cell1, 0, 0, cell.lastCursor)).2.2.1⟩, ?_⟩
  rw [hc, hr]

/-! ### Concrete sample data used by the witnesses -/

def extA : ExternalFns :=
  { sha256hex := fun _ => "hash", getFullYear := fun _ => 2024, getMonth := fun _ => 0 }

def connA : Connection := { id := "conn1", status := "active", tokenRef := 0 }

def bundleFresh : TokenBundle :=
  { accessToken := "tokA", refreshToken := "refA", expiresOn := 600000 }

def bundleStale : TokenBundle :=
  { accessToken := "staleAccess", refreshToken := "staleRefresh", expiresOn := 240000 }

def respA : RefreshResponse :=
  { accessToken := "newAccess", refreshToken := some "newRefresh", expiresOn := 900000 }

def respNone : RefreshResponse :=
  { accessToken := "newAccess2", refreshToken := none, expiresOn := 900000 }

def attA : Attachment :=
  { id := "att1", name := "report.pdf", size := 3, contentBytes := some [1, 2, 3] }

def attNoContent : Attachment :=
  { id := "att2", name := "ghost.pdf", size := 0, contentBytes := none }

def msgA : Message :=
  { id := "msg1", receivedDateTime := 5, hasAttachments := true, attachments := [attA] }

def cellA : Cell :=
  { connectionId := "conn1", connections := [connA], vault := [bundleFresh],
    refreshOutcome := .error "refresh not attempted", remote := [msgA],
    remoteThrows := false, lastCursor := none, ledger := [], uploadCalls := 0,
    hashed := [] }

def cellStale : Cell :=
  { cellA with vault := [bundleStale], refreshOutcome := .ok respA }

def cellFresh : Cell :=
  { cellA with refreshOutcome := .ok respA }

def cellStaleNone : Cell :=
  { cellStale with refreshOutcome := .ok respNone }

theorem C1_dedup_witness :
    countEvents (processAttachment extA cellA msgA attA).1.ledger
        (msgA.id ++ "_" ++ attA.id) = 1 ∧
    processAttachment extA (processAttachment extA cellA msgA attA).1 msgA attA
      = ((processAttachment extA cellA msgA attA).1, false) :=
  ⟨(C1_dedup extA cellA msgA attA [1, 2, 3] connA bundleFresh
      rfl rfl rfl rfl rfl).2.1,
   (C1_dedup extA cellA msgA attA [1, 2, 3] connA bundleFresh
      rfl rfl rfl rfl rfl).2.2.2⟩

theorem C9_skip_missing_content_witness :
    processAttachment extA cellA msgA attNoContent = (cellA, false) ∧
    processAttachmentsList extA cellA msgA [attNoContent, attA]
      = processAttachmentsList extA cellA msgA [attA] :=
  ⟨(C9_skip_missing_content extA cellA msgA attNoContent [attA] rfl).1,
   (C9_skip_missing_content extA cellA msgA attNoContent [attA] rfl).2.1⟩

/-- C6: during polling, a refresh-token exchange happens exactly when
`now >= expiresOn - 5 minutes` (so a token expiring in 4 minutes is refreshed
before use and one expiring in 10 minutes is not); on refresh the new bundle
is persisted at a fresh vault reference, the connection record is pointed at
that new reference (superseding the old, distinct index), and the fresh
access token is the one used; outside the buffer the stored token is used and
neither the vault nor the connection record changes. -/
theorem C6_token_refresh (ext : ExternalFns) (now : Int) (cell : Cell)
    (conn : Connection) (tokens : TokenBundle) (resp : RefreshResponse)
    (hconn : getMsConnection cell.connections cell.connectionId = some conn)
    (hact : conn.status = "active")
    (hvault : cell.vault[conn.tokenRef]? = some tokens)
    (hresp : cell.refreshOutcome = .ok resp)
    (hnet : cell.remoteThrows = false) :
    (tokens.expiresOn - bufferTime ≤ now →
      (pollMailbox ext now cell).usedToken = some resp.accessToken ∧
      (pollMailbox ext now cell).cell.vault = cell.vault ++
        [{ accessToken := resp.accessToken,
           refreshToken := jsOrString resp.refreshToken tokens.refreshToken,
           expiresOn := resp.expiresOn }] ∧
      (pollMailbox ext now cell).cell.connections
        = updateConnectionTokenRef cell.connections cell.connectionId
            cell.vault.length ∧
      conn.tokenRef ≠ cell.vault.length) ∧
    (now < tokens.expiresOn - bufferTime →
      (pollMailbox ext now cell).usedToken = some tokens.accessToken ∧
      (pollMailbox ext now cell).cell.vault = cell.vault ∧
      (pollMailbox ext now cell).cell.connections = cell.connections) := by
  have hlt : conn.tokenRef < cell.vault.length := by
    rcases List.getElem?_eq_some.mp hvault with ⟨h, _⟩
    exact h
  constructor
  · intro hstale
    have hstep := tokenRefreshStep_stale cell tokens now resp hstale hresp
    obtain ⟨L, U, H, cur, s, hpoll⟩ :=
      pollMailbox_run_shape ext now cell conn tokens resp.accessToken _
        hconn hact hvault hstep hnet
    rw [hpoll]
    exact ⟨rfl, rfl, rfl, by omega⟩
  · intro hfresh
    have hstep := tokenRefreshStep_fresh cell tokens now (by omega)
    obtain ⟨L, U, H, cur, s, hpoll⟩ :=
      pollMailbox_run_shape ext now cell conn tokens tokens.accessToken cell
        hconn hact hvault hstep hnet
    rw [hpoll]
    exact ⟨rfl, rfl, rfl⟩

theorem C6_token_refresh_witness :
    ((pollMailbox extA 0 cellStale).usedToken = some respA.accessToken ∧
     (pollMailbox extA 0 cellStale).cell.vault = cellStale.vault ++
       [{ accessToken := respA.accessToken,
          refreshToken := jsOrString respA.refreshToken bundleStale.refreshToken,
          expiresOn := respA.expiresOn }] ∧
     (pollMailbox extA 0 cellStale).cell.connections
       = updateConnectionTokenRef cellStale.connections cellStale.connectionId
           cellStale.vault.length ∧
     connA.tokenRef ≠ cellStale.vault.length) ∧
    ((pollMailbox extA 0 cellFresh).usedToken = some bundleFresh.accessToken ∧
     (pollMailbox extA 0 cellFresh).cell.vault = cellFresh.vault ∧
     (pollMailbox extA 0 cellFresh).cell.connections = cellFresh.connections) :=
  ⟨(C6_token_refresh extA 0 cellStale connA bundleStale respA
      rfl rfl rfl rfl rfl).1 (by decide),
   (C6_token_refresh extA 0 cellFresh connA bundleFresh respA
      rfl rfl rfl rfl rfl).2 (by decide)⟩

/-- C10: when a token refresh succeeds but the response carries no refresh
token, the newly persisted bundle keeps the previously stored refresh token
while taking accessToken and expiresOn from the response — both in the
polling engine's token phase and in `getValidAccessToken`. -/
theorem C10_refresh_token_carryforward (ext : ExternalFns) (now : Int) (cell : Cell)
    (conn : Connection) (tokens : TokenBundle) (resp : RefreshResponse)
    (hconn : getMsConnection cell.connections cell.connectionId = some conn)
    (hact : conn.status = "active")
    (hvault : cell.vault[conn.tokenRef]? = some tokens)
    (hstale : tokens.expiresOn - bufferTime ≤ now)
    (hresp : cell.refreshOutcome = .ok resp)
    (hnone : resp.refreshToken = none)
    (hnet : cell.remoteThrows = false) :
    (pollMailbox ext now cell).cell.vault
      = cell.vault ++ [{ accessToken := resp.accessToken,
                         refreshToken := tokens.refreshToken,
                         expiresOn := resp.expiresOn }] ∧
    getValidAccessToken now tokens (.ok resp)
      = .ok (resp.accessToken,
             some { accessToken := resp.accessToken,
                    refreshToken := tokens.refreshToken,
                    expiresOn := resp.expiresOn }) := by
  constructor
  · have hstep := tokenRefreshStep_stale cell tokens now resp hstale hresp
    rw [hnone] at hstep
    obtain ⟨L, U, H, cur, s, hpoll⟩ :=
      pollMailbox_run_shape ext now cell conn tokens resp.accessToken _
        hconn hact hvault hstep hnet
    rw [hpoll]
    exact rfl
  · unfold getValidAccessToken
    rw [if_pos hstale]
    dsimp only
    rw [hnone]
    exact rfl

theorem C10_refresh_token_carryforward_witness :
    (pollMailbox extA 0 cellStaleNone).cell.vault
      = cellStaleNone.vault ++
        [{ accessToken := respNone.accessToken,
           refreshToken := bundleStale.refreshToken,
           expiresOn := respNone.expiresOn }] ∧
    getValidAccessToken 0 bundleStale (.ok respNone)
      = .ok (respNone.accessToken,
             some { accessToken := respNone.accessToken,
                    refreshToken := bundleStale.refreshToken,
                    expiresOn := respNone.expiresOn }) :=
  C10_refresh_token_carryforward extA 0 cellStaleNone connA bundleStale respNone
    rfl rfl rfl (by decide) rfl rfl rfl

/-- C7: the claim says the Archive Uploader obtains its access token via the
Token Refresh Manager, so a stored token whose expiry lies within the
5-minute buffer is refreshed before the upload uses it.  In the code the
uploader calls `retrieveTokenSecurely` directly: at `now = 0` with the stored
bundle expiring in 4 minutes (inside the buffer), the upload succeeds using
exactly that stored, unrefreshed access token. -/
theorem C7_counterexample :
    (bundleStale.expiresOn - bufferTime ≤ (0 : Int)) ∧
    (∃ r, uploadAttachmentToSharePoint extA [connA] [bundleStale] msgA attA [1, 2, 3]
        = .ok r ∧ r.accessTokenUsed = bundleStale.accessToken) :=
  ⟨by decide, ⟨_, rfl, rfl⟩⟩

/-- C7 (amended): the Archive Uploader resolves the tenant's active
Connection but then retrieves the stored token bundle directly from the vault
and uses its access token as-is: it never consults the clock and never
refreshes, so even a token whose expiry lies within the 5-minute buffer is
used unchanged for the upload. -/
theorem C7_upload_uses_stored_token (ext : ExternalFns) (connections : List Connection)
    (vault : List TokenBundle) (message : Message) (a : Attachment)
    (content : List Nat) (conn : Connection) (tokens : TokenBundle)
    (hconn : getActiveMsConnection connections = some conn)
    (hvault : vault[conn.tokenRef]? = some tokens) :
    uploadAttachmentToSharePoint ext connections vault message a content
      = .ok { path := archiveBasePath ext message.receivedDateTime ++ "/"
                ++ sanitizeFileNameStr a.name,
              fileName := sanitizeFileNameStr a.name,
              accessTokenUsed := tokens.accessToken,
              mode := (uploadToSharePoint content).1 } := by
  unfold uploadAttachmentToSharePoint
  rw [hconn]
  dsimp only
  rw [hvault]

theorem C7_upload_uses_stored_token_witness :
    uploadAttachmentToSharePoint extA [connA] [bundleStale] msgA attA [1, 2, 3]
      = .ok { path := archiveBasePath extA msgA.receivedDateTime ++ "/"
                ++ sanitizeFileNameStr attA.name,
              fileName := sanitizeFileNameStr attA.name,
              accessTokenUsed := bundleStale.accessToken,
              mode := (uploadToSharePoint [1, 2, 3]).1 } :=
  C7_upload_uses_stored_token extA [connA] [bundleStale] msgA attA [1, 2, 3]
    connA bundleStale rfl rfl

/-! ### The poll cycle -/

theorem pollCycleFold_cells (ext : ExternalFns) (now : Int) :
    ∀ (cells : List Cell) (acc : CycleTotals),
    (cells.foldl (pollCycleStep ext now) acc).cells
      = acc.cells ++ cells.map (fun c => (pollMailbox ext now c).cell) := by
  intro cells
  induction cells with
  | nil => intro acc; simp
  | cons c rest ih =>
    intro acc
    rw [List.foldl_cons, ih]
    have hstep : (pollCycleStep ext now acc c).cells
        = acc.cells ++ [(pollMailbox ext now c).cell] := by
      unfold pollCycleStep
      dsimp only
      split
      · rfl
      · rfl
    rw [hstep, List.map_cons, List.append_assoc]
    rfl

theorem pollMailbox_error_cursor (ext : ExternalFns) (now : Int) (cell : Cell) :
    (∃ s, (pollMailbox ext now cell).result = .ok s) ∨
    (pollMailbox ext now cell).cell.lastCursor = cell.lastCursor := by
  unfold pollMailbox
  split
  · exact .inl ⟨_, rfl⟩
  · split
    · split
      · exact .inr rfl
      · split
        · exact .inr rfl
        next tok cell1 hstep =>
          split
          · exact .inr
              (tokenRefreshStep_ok_fields _ _ now tok cell1 hstep).2.2.2.2.1
          · exact .inl ⟨_, rfl⟩
    · exact .inl ⟨_, rfl⟩

/-- C8: one failing mailbox never stops the cycle: the cycle maps every
mailbox independently through `pollMailbox` (so all remaining mailboxes are
polled exactly as if the failure had not happened, and the cycle always
completes), a mailbox whose poll throws — token reference unreadable, refresh
failed, or the remote query threw — keeps its cursor unchanged, and a missing
or non-active connection is skipped with zero counts and untouched state. -/
theorem C8_per_mailbox_isolation (ext : ExternalFns) (now : Int) (cells : List Cell) :
    ((pollAllMailboxes ext now cells).cells
      = cells.map (fun c => (pollMailbox ext now c).cell)) ∧
    (∀ cell : Cell, ∀ e, (pollMailbox ext now cell).result = .error e →
        (pollMailbox ext now cell).cell.lastCursor = cell.lastCursor) ∧
    (∀ cell : Cell, getMsConnection cell.connections cell.connectionId = none →
        pollMailbox ext now cell
          = { result := .ok ⟨0, 0⟩, cell := cell, usedToken := none }) ∧
    (∀ cell : Cell, ∀ conn : Connection,
        getMsConnection cell.connections cell.connectionId = some conn →
        ¬ conn.status = "active" →
        pollMailbox ext now cell
          = { result := .ok ⟨0, 0⟩, cell := cell, usedToken := none }) := by
  refine ⟨?_, ?_, ?_, ?_⟩
  · unfold pollAllMailboxes
    rw [pollCycleFold_cells]
    simp
  · intro cell e herr
    rcases pollMailbox_error_cursor ext now cell with ⟨s, hs⟩ | hcur
    · rw [herr] at hs
      exact absurd hs (by simp)
    · exact hcur
  · intro cell hnone
    unfold pollMailbox
    rw [hnone]
  · intro cell conn hconn hstat
    unfold pollMailbox
    rw [hconn]
    dsimp only
    rw [if_neg hstat]

def cellNoConn : Cell := { cellA with connections := [] }

theorem C8_per_mailbox_isolation_witness :
    ((pollAllMailboxes extA 0 [cellNoConn]).cells
      = [cellNoConn].map (fun c => (pollMailbox extA 0 c).cell)) ∧
    pollMailbox extA 0 cellNoConn
      = { result := .ok ⟨0, 0⟩, cell := cellNoConn, usedToken := none } :=
  ⟨(C8_per_mailbox_isolation extA 0 [cellNoConn]).1,
   (C8_per_mailbox_isolation extA 0 [cellNoConn]).2.2.1 cellNoConn rfl⟩

/-! ### Cursor behaviour -/

theorem messagePasses_of (lc : Option Nat) (m : Message)
    (hatt : m.hasAttachments = true)
    (hcur : ∀ c, lc = some c → c < m.receivedDateTime) :
    messagePasses lc m = true := by
  unfold messagePasses
  rw [hatt]
  cases hc : lc with
  | none => rfl
  | some c => simp [hcur c hc]

theorem messagePasses_le (c : Nat) (m : Message)
    (h : m.receivedDateTime ≤ c) :
    messagePasses (some c) m = false := by
  unfold messagePasses
  have : ¬ (c < m.receivedDateTime) := Nat.not_lt.mpr h
  simp [this]

theorem filter_cons_true {α : Type} (p : α → Bool) (a : α) (l : List α)
    (h : p a = true) : (a :: l).filter p = a :: l.filter p := by
  simp [List.filter_cons, h]

theorem filter_cons_false {α : Type} (p : α → Bool) (a : α) (l : List α)
    (h : p a = false) : (a :: l).filter p = l.filter p := by
  simp [List.filter_cons, h]

theorem cursorCommit_update (lc : Option Nat) (r : Cell × Nat × Nat × Option Nat)
    (t : Nat) (hr : r.2.2.2 = some t) (hne : ¬ lc = some t) :
    cursorCommit lc r = { r.1 with lastCursor := some t } := by
  unfold cursorCommit
  rw [hr]
  dsimp only
  rw [if_neg hne]

theorem cursorCommit_keep (lc : Option Nat) (r : Cell × Nat × Nat × Option Nat)
    (t : Nat) (hr : r.2.2.2 = some t) (heq : lc = some t) :
    cursorCommit lc r = r.1 := by
  unfold cursorCommit
  rw [hr]
  dsimp only
  rw [if_pos heq]

/-- C2: after a successful poll of a mailbox whose page holds exactly three
messages at ascending received times T1 < T2 < T3, the cursor equals T3; the
query filter is strict (`receivedDateTime gt cursor`, so any message at or
before the cursor fails the filter), and a second poll over the same remote
data returns zero new messages and leaves the cursor at T3. -/
theorem C2_cursor_monotonic (ext : ExternalFns) (now : Int) (cell : Cell)
    (conn : Connection) (tokens : TokenBundle) (m1 m2 m3 : Message)
    (hconn : getMsConnection cell.connections cell.connectionId = some conn)
    (hact : conn.status = "active")
    (hvault : cell.vault[conn.tokenRef]? = some tokens)
    (hfresh : now < tokens.expiresOn - bufferTime)
    (hnet : cell.remoteThrows = false)
    (hremote : cell.remote = [m1, m2, m3])
    (ha1 : m1.hasAttachments = true)
    (ha2 : m2.hasAttachments = true)
    (ha3 : m3.hasAttachments = true)
    (h12 : m1.receivedDateTime < m2.receivedDateTime)
    (h23 : m2.receivedDateTime < m3.receivedDateTime)
    (hcur : ∀ c, cell.lastCursor = some c → c < m1.receivedDateTime) :
    (∀ c : Nat, ∀ m : Message, m.receivedDateTime ≤ c →
        messagePasses (some c) m = false) ∧
    (∃ s, (pollMailbox ext now cell).result = .ok s ∧ s.emailsProcessed = 3) ∧
    (pollMailbox ext now cell).cell.lastCursor = some m3.receivedDateTime ∧
    queryMessages cell.remote (some m3.receivedDateTime) = [] ∧
    (∃ s2, (pollMailbox ext now ((pollMailbox ext now cell).cell)).result = .ok s2 ∧
        s2.emailsProcessed = 0) ∧
    (pollMailbox ext now ((pollMailbox ext now cell).cell)).cell.lastCursor
      = some m3.receivedDateTime := by
  have hstep := tokenRefreshStep_fresh cell tokens now (by omega)
  have hrun := pollMailbox_run ext now cell conn tokens tokens.accessToken cell
    hconn hact hvault hstep hnet
  have hp1 := messagePasses_of cell.lastCursor m1 ha1 hcur
  have hp2 := messagePasses_of cell.lastCursor m2 ha2
    (fun c hc => Nat.lt_trans (hcur c hc) h12)
  have hp3 := messagePasses_of cell.lastCursor m3 ha3
    (fun c hc => Nat.lt_trans (Nat.lt_trans (hcur c hc) h12) h23)
  have hquery1 : queryMessages cell.remote cell.lastCursor = [m1, m2, m3] := by
    unfold queryMessages
    rw [hremote, filter_cons_true _ _ _ hp1, filter_cons_true _ _ _ hp2,
        filter_cons_true _ _ _ hp3]
    rfl
  rw [hquery1] at hrun
  -- the three-message fold: the email counter reaches 3 and the running
  -- cursor ends at T3
  have hfoldcur : (([m1, m2, m3].foldl (pollStep ext)
      (cell, 0, 0, cell.lastCursor))).2.2.2 = some m3.receivedDateTime := rfl
  have hne3 : ¬ cell.lastCursor = some m3.receivedDateTime := by
    intro h
    have := hcur m3.receivedDateTime h
    omega
  have hcommit := cursorCommit_update cell.lastCursor
    ([m1, m2, m3].foldl (pollStep ext) (cell, 0, 0, cell.lastCursor))
    m3.receivedDateTime hfoldcur hne3
  -- the state after the first poll
  obtain ⟨L, U, H, hshape⟩ := pollFold_shape ext [m1, m2, m3] (cell, 0, 0, cell.lastCursor)
  have hcell1 : (pollMailbox ext now cell).cell
      = { cell with ledger := L, uploadCalls := U, hashed := H, lastCursor := some m3.receivedDateTime } := by
    rw [hrun]
    dsimp only
    rw [hcommit, hshape]
  have hq2 : queryMessages cell.remote (some m3.receivedDateTime) = [] := by
    unfold queryMessages
    rw [hremote,
        filter_cons_false _ _ _ (messagePasses_le _ m1
          (Nat.le_of_lt (Nat.lt_trans h12 h23))),
        filter_cons_false _ _ _ (messagePasses_le _ m2 (Nat.le_of_lt h23)),
        filter_cons_false _ _ _ (messagePasses_le _ m3 (Nat.le_refl _))]
    rfl
  refine ⟨fun c m h => messagePasses_le c m h, ?_, ?_, hq2, ?_, ?_⟩
  · refine ⟨_, by rw [hrun], ?_⟩
    rfl
  · rw [hcell1]
  · -- second poll: same connection, vault and remote; cursor now at T3
    have hconn2 : getMsConnection (pollMailbox ext now cell).cell.connections
        (pollMailbox ext now cell).cell.connectionId = some conn := by
      rw [hcell1]; exact hconn
    have hvault2 : (pollMailbox ext now cell).cell.vault[conn.tokenRef]?
        = some tokens := by
      rw [hcell1]; exact hvault
    have hnet2 : (pollMailbox ext now cell).cell.remoteThrows = false := by
      rw [hcell1]; exact hnet
    have hstep2 := tokenRefreshStep_fresh (pollMailbox ext now cell).cell tokens now
      (by omega)
    have hrun2 := pollMailbox_run ext now (pollMailbox ext now cell).cell conn tokens
      tokens.accessToken (pollMailbox ext now cell).cell hconn2 hact hvault2
      hstep2 hnet2
    have hq2' : queryMessages (pollMailbox ext now cell).cell.remote
        (pollMailbox ext now cell).cell.lastCursor = [] := by
      rw [hcell1]
      exact hq2
    rw [hq2'] at hrun2
    refine ⟨_, by rw [hrun2], rfl⟩
  · have hconn2 : getMsConnection (pollMailbox ext now cell).cell.connections
        (pollMailbox ext now cell).cell.connectionId = some conn := by
      rw [hcell1]; exact hconn
    have hvault2 : (pollMailbox ext now cell).cell.vault[conn.tokenRef]?
        = some tokens := by
      rw [hcell1]; exact hvault
    have hnet2 : (pollMailbox ext now cell).cell.remoteThrows = false := by
      rw [hcell1]; exact hnet
    have hstep2 := tokenRefreshStep_fresh (pollMailbox ext now cell).cell tokens now
      (by omega)
    have hrun2 := pollMailbox_run ext now (pollMailbox ext now cell).cell conn tokens
      tokens.accessToken (pollMailbox ext now cell).cell hconn2 hact hvault2
      hstep2 hnet2
    have hq2' : queryMessages (pollMailbox ext now cell).cell.remote
        (pollMailbox ext now cell).cell.lastCursor = [] := by
      rw [hcell1]
      exact hq2
    rw [hq2'] at hrun2
    have hlast : (pollMailbox ext now cell).cell.lastCursor
        = some m3.receivedDateTime := by
      rw [hcell1]
    have hcommit2 := cursorCommit_keep (pollMailbox ext now cell).cell.lastCursor
      (([] : List Message).foldl (pollStep ext)
        ((pollMailbox ext now cell).cell, 0, 0,
          (pollMailbox ext now cell).cell.lastCursor))
      m3.receivedDateTime hlast hlast
    rw [hrun2]
    dsimp only
    rw [hcommit2]
    exact hlast

def msg1 : Message :=
  { id := "m1", receivedDateTime := 10, hasAttachments := true, attachments := [] }

def msg2 : Message :=
  { id := "m2", receivedDateTime := 20, hasAttachments := true, attachments := [] }

def msg3 : Message :=
  { id := "m3", receivedDateTime := 30, hasAttachments := true, attachments := [] }

def cellB : Cell := { cellA with remote := [msg1, msg2, msg3] }

theorem C2_cursor_monotonic_witness :
    (pollMailbox extA 0 cellB).cell.lastCursor = some msg3.receivedDateTime ∧
    queryMessages cellB.remote (some msg3.receivedDateTime) = [] ∧
    (pollMailbox extA 0 (pollMailbox extA 0 cellB).cell).cell.lastCursor
      = some msg3.receivedDateTime :=
  ⟨(C2_cursor_monotonic extA 0 cellB connA bundleFresh msg1 msg2 msg3
      rfl rfl rfl (by decide) rfl rfl rfl rfl rfl (by decide) (by decide)
      (fun c hc => nomatch hc)).2.2.1,
   (C2_cursor_monotonic extA 0 cellB connA bundleFresh msg1 msg2 msg3
      rfl rfl rfl (by decide) rfl rfl rfl rfl rfl (by decide) (by decide)
      (fun c hc => nomatch hc)).2.2.2.1,
   (C2_cursor_monotonic extA 0 cellB connA bundleFresh msg1 msg2 msg3
      rfl rfl rfl (by decide) rfl rfl rfl rfl rfl (by decide) (by decide)
      (fun c hc => nomatch hc)).2.2.2.2.2⟩

end MailArchive
